import Mathlib

/-!
Verification of the koishi message-dispatch core against its specification.

The embedding below translates the orchestration class of `app.ts` (addressing
matchers, the attachment gate of `_preprocess`, the middleware chain runner
`_applyMiddlewares`, the memoized `getSelfIds` resolver) and the help plugin of
`plugins/help.ts` into executable Lean definitions, and proves or refutes the
frozen claims about them.

Strings are modelled through their character lists (`String.data`); all the
characters the source manipulates are in the basic multilingual plane, so JS
`.length`/`.slice` code-unit arithmetic coincides with character arithmetic.
-/

/- ============================================================ -/
/- § 1  Addressing matcher (app.ts lines 38-40, 96-100, 136-141, 160-186) -/
/- ============================================================ -/

/-- The ASCII part of the JS `\s` whitespace class, used by the address patterns. -/
def jsWs (c : Char) : Bool :=
  c = ' ' || c = '\t' || c = '\n' || c = '\r' || c = '\x0B' || c = '\x0C'

/-- Longest leading `\s*` run of a string. -/
def wsRun (s : String) : String :=
  String.mk (s.data.takeWhile jsWs)

/-- `p` occurs literally at the start of `s` (the anchored, regex-escaped item test). -/
def strLeads (p s : String) : Bool :=
  p.data.isPrefixOf s.data

/-- Drop the first `n` characters of `s` (JS `s.slice(n)` for BMP strings). -/
def strDrop (s : String) (n : Nat) : String :=
  String.mk (s.data.drop n)

/-- Character length of `s` (JS `s.length` for BMP strings). -/
def strLen (s : String) : Nat :=
  s.data.length

/-- Matcher semantics of the JS pattern `^$`, the empty-list branch of
`createLeadingRE` (app.ts line 39): it matches exactly the empty string,
with an empty overall match. -/
def emptyREMatch (s : String) : Option String :=
  if s = "" then some "" else none

/-- Matcher semantics of `_prefixRE = createLeadingRE(prefixes)` (app.ts line 100):
an anchored alternation of the regex-escaped configured items, so the first item
in list order that leads the message is the overall match.  On an empty item list
`createLeadingRE` yields `^$`. -/
def cmdPfxMatch (pfxs : List String) (s : String) : Option String :=
  match pfxs with
  | [] => emptyREMatch s
  | _ :: _ => pfxs.findSome? (fun p => if strLeads p s then some p else none)

/-- The separator group `([,，]\s*|\s+)` applied at the start of `s`: a comma
(ASCII or fullwidth) followed by a greedy whitespace run, or else a nonempty
greedy whitespace run. -/
def nameSepMatch (s : String) : Option String :=
  match s.data with
  | [] => none
  | c :: cs =>
    if c = ',' ∨ c = '，' then some (String.mk (c :: cs.takeWhile jsWs))
    else if jsWs c then some (String.mk ((c :: cs).takeWhile jsWs))
    else none

/-- One alternation pass of `_nameRE` at a fixed position: the first nickname in
list order that leads `s` and is followed by the separator group; the overall
match is nickname ++ separator. -/
def nameAltMatch (nicknames : List String) (s : String) : Option String :=
  nicknames.findSome? (fun n =>
    if strLeads n s then
      match nameSepMatch (strDrop s (strLen n)) with
      | some sep => some (n ++ sep)
      | none => none
    else none)

/-- Matcher semantics of `_nameRE = createLeadingRE(nicknames, '@?', '([,，]\s*|\s+)')`
(app.ts line 99).  The optional `@` is greedy: when the message starts with `@` the
alternation is tried after the `@` first, and only on failure at position 0.
On an empty nickname list `createLeadingRE` yields `^$`. -/
def nameREMatch (nicknames : List String) (s : String) : Option String :=
  match nicknames with
  | [] => emptyREMatch s
  | _ :: _ =>
    if strLeads "@" s then
      match nameAltMatch nicknames (strDrop s 1) with
      | some m => some ("@" ++ m)
      | none => nameAltMatch nicknames s
    else nameAltMatch nicknames s

/-- Matcher semantics of `_atMeRE = createLeadingRE(selfIds, '\[CQ:at,qq=', '\]\s*')`
as built by `prepare` (app.ts lines 136-141): the first known self id whose CQ
at-code leads the message; the overall match includes the trailing whitespace run.
On an empty id list `createLeadingRE` yields `^$`. -/
def atMeMatch (selfIds : List Nat) (s : String) : Option String :=
  match selfIds with
  | [] => emptyREMatch s
  | _ :: _ =>
    selfIds.findSome? (fun i =>
      let pat := "[CQ:at,qq=" ++ toString i ++ "]"
      if strLeads pat s then some (pat ++ wsRun (strDrop s (strLen pat))) else none)

/-- The session's `messageType` values consulted by the dispatcher. -/
inductive MessageType where
  | privateMsg
  | groupMsg
  | discussMsg
deriving DecidableEq

/-- The `$parsed` record stored on the session (app.ts line 186). -/
structure AddressedResult where
  atMe : Bool
  nickname : String
  pfx : Option String
  message : String
deriving DecidableEq

/-- The three configured/known item lists the matchers are built from
(app.ts lines 96-100 and 136-141). -/
structure AddressConfig where
  selfIds : List Nat
  nicknames : List String
  pfxs : List String
deriving DecidableEq

/-- The address-stripping prelude of `_preprocess` (app.ts lines 162-186), applied
to the trimmed, simplified message text:
step 1 (non-private only) consumes an at-mention of self and sets `atMe` and
`nickname`; step 2 consumes a nickname when the match is nonempty, overwriting
`nickname`; step 3 consumes a command prefix into `pfx` (`null` when unmatched). -/
def stripAddress (cfg : AddressConfig) (mt : MessageType) (msg : String) : AddressedResult :=
  let step1 : Bool × String × String :=
    if mt ≠ MessageType.privateMsg then
      match atMeMatch cfg.selfIds msg with
      | some cap => (true, cap, strDrop msg (strLen cap))
      | none => (false, "", msg)
    else (false, "", msg)
  match step1 with
  | (atMe, nick1, m1) =>
    let step2 : String × String :=
      match nameREMatch cfg.nicknames m1 with
      | some cap => if strLen cap ≠ 0 then (cap, strDrop m1 (strLen cap)) else (nick1, m1)
      | none => (nick1, m1)
    match step2 with
    | (nick2, m2) =>
      match cmdPfxMatch cfg.pfxs m2 with
      | some cap => ⟨atMe, nick2, some cap, strDrop m2 (strLen cap)⟩
      | none => ⟨atMe, nick2, none, m2⟩

/- ============================================================ -/
/- § 2  Attachment gate and command dispatch trigger (app.ts lines 160-221) -/
/- ============================================================ -/

/-- Modelled from the spec: the ignore bit of the group `flag` bitmask
(`Group.Flag.ignore`; the database module is not under src/, the spec describes
`flag` as "a bitmask including an ignore bit"). -/
def Group.ignoreFlag : Nat := 1

/-- Modelled from the spec: the ignore bit of the user `flag` bitmask
(`User.Flag.ignore`; the database module is not under src/). -/
def User.ignoreFlag : Nat := 1

/-- The group row returned by `session.observeGroup` with the declared columns
`flag` and `assignee` (app.ts lines 192-194). -/
structure GroupRow where
  flag : Nat
  assignee : Nat
deriving DecidableEq

/-- The user row returned by `session.observeUser` with the declared column
`flag` (app.ts lines 205-207). -/
structure UserRow where
  flag : Nat
deriving DecidableEq

/-- The inputs `_preprocess` consults after the address stripping prelude:
whether a database is configured, the message type, the receiving bot's id, the
`atMe` flag from `$parsed`, the rows the observe calls would return, the truthiness
of the `attach-group` / `attach-user` serialize results (listener vetoes), and
whether `this.parse` resolved a command invocation into `session.$argv`
(app.ts line 187; the parse pipeline itself lives outside this core). -/
structure PreprocessInput where
  dbConfigured : Bool
  mt : MessageType
  selfId : Nat
  atMe : Bool
  groupRow : GroupRow
  userRow : UserRow
  vetoGroup : Bool
  vetoUser : Bool
  argvResolved : Bool
deriving DecidableEq

/-- Observable steps of one `_preprocess` run: the two lazy row loads, the
unconditional `attach` notification, invoking the continuation, and executing the
resolved command. -/
inductive PreEvent where
  | loadGroup
  | loadUser
  | attachNotify
  | callNext
  | execCommand
deriving DecidableEq

/-- app.ts lines 216-220: the unconditional `attach` notification, then the
command dispatch trigger — execute the resolved command without calling the
continuation, or fall through to `next()`. -/
def preprocessTail (i : PreprocessInput) : List PreEvent :=
  PreEvent.attachNotify ::
    (if i.argvResolved then [PreEvent.execCommand] else [PreEvent.callNext])

/-- app.ts lines 204-213: load the user row, let listeners veto, abort quietly
when the user's ignore bit is set. -/
def preprocessUser (i : PreprocessInput) : List PreEvent :=
  PreEvent.loadUser ::
    (if i.vetoUser then []
     else if i.userRow.flag &&& User.ignoreFlag ≠ 0 then []
     else preprocessTail i)

/-- The gate portion of `_preprocess` (app.ts lines 189-221), as the list of
observable steps it performs.  With a database, group messages first load the
group row (lines 190-194), may be vetoed (line 197), and abort quietly when the
group's ignore bit is set (line 200) or when the assignee is another bot and the
message was not an at-mention (line 201); then the user row is handled; without a
database both loads are skipped. -/
def preprocess (i : PreprocessInput) : List PreEvent :=
  if i.dbConfigured then
    if i.mt = MessageType.groupMsg then
      PreEvent.loadGroup ::
        (if i.vetoGroup then []
         else if i.groupRow.flag &&& Group.ignoreFlag ≠ 0 then []
         else if i.groupRow.assignee ≠ i.selfId ∧ i.atMe = false then []
         else preprocessUser i)
    else preprocessUser i
  else preprocessTail i

/- ============================================================ -/
/- § 3  Middleware dispatcher (app.ts lines 223-263) -/
/- ============================================================ -/

/-- A JS error value: either a native `Error` or a non-`Error` thrown/rejected
value (`types.isNativeError` distinguishes them, app.ts line 247). -/
inductive MWErr where
  | native (msg : String)
  | nonNative (msg : String)
deriving DecidableEq

/-- app.ts lines 247-249: a caught non-`Error` value is wrapped in `new Error`. -/
def toNativeError : MWErr → MWErr
  | MWErr.native m => MWErr.native m
  | MWErr.nonNative m => MWErr.native m

/-- The error thrown on a stale continuation (app.ts line 242). -/
def staleError : MWErr := MWErr.native "isolated next function detected"

/-- The space of middleware behaviours the dispatcher is exercised with:
return without invoking the continuation (short-circuit), tail-call the
continuation (optionally passing a fallback), throw synchronously (a plain
function throwing, so the call on line 245 itself throws), or return an
asynchronous result that rejects (an async function failing, so line 245
returns a rejected promise). -/
inductive MW where
  | done
  | callNext
  | callNextFB (fb : MW)
  | throwSync (e : MWErr)
  | rejectAsync (e : MWErr)
deriving DecidableEq

/-- Observable events of one dispatch: a middleware invocation, a warning logged
by the catch clause (with the reconstructed call trail), and the cleanup steps of
lines 256-262. -/
inductive DispatchEvent where
  | execMW (i : Nat)
  | logged (trail : List Nat) (e : MWErr)
  | tokenRemoved (counter : Nat)
  | afterMiddleware
  | flushUser
  | flushGroup
deriving DecidableEq

/-- The mutable state threaded through the continuation closure `next`
(app.ts lines 231-253): the app's live token set `_middlewareSet`, the snapshot
`middlewares` (mutated by fallback pushes), the cursor `index`, the accumulated
trail `stack`, and the events observed so far. -/
structure ChainState where
  live : List Nat
  mws : List MW
  index : Nat
  trail : List Nat
  events : List DispatchEvent
deriving DecidableEq

/-- app.ts lines 234-238: each `next` invocation with a nonzero cursor prepends
its caller's source location to the trail; the caller of the invocation that runs
middleware `k` is middleware `k - 1`, whose identifier stands in for the
stack-trace text. -/
def pushTrail (st : ChainState) : ChainState :=
  if st.index ≠ 0 then { st with trail := (st.index - 1) :: st.trail } else st

/-- How the promise of one `next` invocation settles: it resolves, it rejects
with an uncaught error, or (fuel exhausted) it never settles. -/
inductive Outcome where
  | resolved
  | rejected (e : MWErr)
  | fuelOut
deriving DecidableEq

/-- app.ts line 244: a fallback passed to `next` is appended to the snapshot as
its terminal step before the cursor is consulted. -/
def fbPush (fb : Option MW) (st : ChainState) : ChainState :=
  match fb with
  | some f => { st with mws := st.mws ++ [f] }
  | none => st

/-- app.ts line 245: `middlewares[index++]?.(session, next)`.  The cursor is
post-incremented even when it is past the end of the snapshot.  A run-off-the-end
or short-circuiting middleware resolves; a plain middleware throwing synchronously
makes the call itself throw, which the enclosing catch (lines 246-252) converts to
a native `Error` and logs with the accumulated trail; an async middleware that
rejects yields a rejected promise, which is returned without `await` and therefore
bypasses the catch; a middleware that tail-calls the continuation hands control to
`next` (passed in as the argument of this helper). -/
def runStep (next : Option MW → ChainState → ChainState × Outcome)
    (st : ChainState) : ChainState × Outcome :=
  match st.mws.get? st.index with
  | none => ({ st with index := st.index + 1 }, Outcome.resolved)
  | some mw =>
    let st' := { st with
      index := st.index + 1
      events := st.events ++ [DispatchEvent.execMW st.index] }
    match mw with
    | MW.done => (st', Outcome.resolved)
    | MW.throwSync e =>
      ({ st' with events := st'.events ++ [DispatchEvent.logged st'.trail (toNativeError e)] },
       Outcome.resolved)
    | MW.rejectAsync e => (st', Outcome.rejected e)
    | MW.callNext => next none st'
    | MW.callNextFB fb₂ => next (some fb₂) st'

/-- The continuation `next` (app.ts lines 233-253).  After the trail update
(lines 234-238), the try block checks the isolation token against the live set
(line 241): when absent it throws `staleError`, which the catch clause logs with
the trail — before any fallback is appended and without invoking any middleware;
when present the fallback is appended (line 244) and the middleware at the cursor
is invoked (line 245, `runStep`). -/
def runNext (counter : Nat) : Nat → Option MW → ChainState → ChainState × Outcome
  | 0, _, st => (st, Outcome.fuelOut)
  | Nat.succ fuel, fb, st₀ =>
    let st := pushTrail st₀
    if counter ∈ st.live then runStep (runNext counter fuel) (fbPush fb st)
    else
      ({ st with events := st.events ++ [DispatchEvent.logged st.trail staleError] },
       Outcome.resolved)

/-- Per-dispatch inputs of `_applyMiddlewares`: the selector-filtered snapshot of
registered middlewares (lines 227-229) and whether a user/group row is attached
to the session when the flush of lines 261-262 runs. -/
structure DispatchArgs where
  mws : List MW
  hasUser : Bool
  hasGroup : Bool
deriving DecidableEq

/-- The cleanup block of app.ts lines 256-262: remove the token from the live
set, emit `after-middleware`, and flush the attached user and group rows. -/
def cleanupEvents (counter : Nat) (hasUser hasGroup : Bool) : List DispatchEvent :=
  [DispatchEvent.tokenRemoved counter, DispatchEvent.afterMiddleware]
    ++ (if hasUser then [DispatchEvent.flushUser] else [])
    ++ (if hasGroup then [DispatchEvent.flushGroup] else [])

/-- The chain phase of `_applyMiddlewares` (lines 225-254): mint the token, add
it to the live set, and run `await next()` on the snapshot. -/
def dispatchChain (fuel counter : Nat) (liveOthers : List Nat) (mws : List MW) :
    ChainState × Outcome :=
  runNext counter fuel none ⟨counter :: liveOthers, mws, 0, [], []⟩

/-- Result of one `_applyMiddlewares` run: the final chain state, how the awaited
chain settled, and the full dispatch event trace. -/
structure DispatchOut where
  chain : ChainState
  outcome : Outcome
  events : List DispatchEvent
deriving DecidableEq

/-- `_applyMiddlewares` (app.ts lines 223-263).  When the promise awaited on
line 254 resolves — the chain ran off the snapshot, a middleware short-circuited,
or an error was caught — the cleanup of lines 256-262 runs once; when it rejects
(an uncaught asynchronous middleware failure) execution never reaches line 257
and no cleanup runs; a chain that never settles also never reaches it. -/
def applyMiddlewares (fuel counter : Nat) (liveOthers : List Nat) (a : DispatchArgs) :
    DispatchOut :=
  match dispatchChain fuel counter liveOthers a.mws with
  | (st, Outcome.resolved) =>
    ⟨st, Outcome.resolved, st.events ++ cleanupEvents counter a.hasUser a.hasGroup⟩
  | (st, out) => ⟨st, out, st.events⟩

/-- Events the chain phase itself can emit (middleware invocations and catch-clause
log lines), as opposed to the cleanup events of lines 256-262. -/
def isChainEvent : DispatchEvent → Bool
  | DispatchEvent.execMW _ => true
  | DispatchEvent.logged _ _ => true
  | _ => false

/- ============================================================ -/
/- § 4  Bot identity resolver (app.ts lines 122-134) -/
/- ============================================================ -/

/-- A configured bot as `getSelfIds` sees it: its identity (for tracing the
network calls), the truthiness of `bot._get`, and its cached self id
(absent until resolved; ids are positive, so JS truthiness is presence). -/
structure BotEntry where
  botId : Nat
  hasGet : Bool
  selfId : Option Nat
deriving DecidableEq

/-- The resolver state: the truthiness of `this._getSelfIdsPromise` and the trace
of `getLoginInfo` network calls issued so far (by bot identity). -/
structure ResolverState where
  promiseSet : Bool
  loginCalls : List Nat
deriving DecidableEq

/-- The synchronous section of `getSelfIds` (app.ts lines 122-131), which runs
atomically under the JS event loop: when no shared promise exists, install one
and issue a `getLoginInfo` call for every bot with `_get` and no cached self id
(line 123 filters on `_get`; line 126 skips resolved bots); when a shared promise
already exists, issue nothing.  The returned flag says whether this call started
a new resolution (`false` means the caller awaits the in-flight one). -/
def getSelfIdsSync (bots : List BotEntry) (st : ResolverState) : ResolverState × Bool :=
  if st.promiseSet then (st, false)
  else
    ({ promiseSet := true,
       loginCalls := st.loginCalls ++
         ((bots.filter (fun b => b.hasGet && b.selfId.isNone)).map BotEntry.botId) },
     true)

/- ============================================================ -/
/- § 5  Help plugin (plugins/help.ts lines 35-92) -/
/- ============================================================ -/

/-- What the before-command hook reads off the parsed argv: the truthiness of
`command._action`, the truthiness of `options.help`, and `command.name`. -/
structure BeforeCommandArgv where
  hasAction : Bool
  helpOption : Bool
  cmdName : String
deriving DecidableEq

/-- The before-command hook of the help plugin (help.ts lines 57-65): when the
command has an action and the help option is not set, return with no effect;
otherwise execute the `help` command with the command's name as its sole
argument and return `true` (short-circuiting the original execution).  The first
component lists the `app.execute` calls as (command, args) pairs; the second is
the hook's return value. -/
def helpBeforeCommand (a : BeforeCommandArgv) : List (String × List String) × Option Bool :=
  if a.hasAction && !a.helpOption then ([], none)
  else ([("help", [a.cmdName])], some true)

/-- An option definition as the help plugin registers it (the `hidden` config
field is declared in help.ts lines 29-32). -/
structure OptionDef where
  rawName : String
  description : String
  hidden : Bool
deriving DecidableEq

/-- A command node, restricted to the fields the new-command hook touches. -/
structure CommandNode where
  name : String
  _examples : List String
  _options : List OptionDef
deriving DecidableEq

/-- Modelled from the spec: `Command.option` (the command module is not under
src/) registers a new option definition on the node; the "new command registered"
notification lets collaborators attach hidden options this way. -/
def Command.optionReg (cmd : CommandNode) (rawName description : String)
    (hidden : Bool) : CommandNode :=
  { cmd with _options := cmd._options ++ [⟨rawName, description, hidden⟩] }

/-- The new-command hook of the help plugin (help.ts lines 51-54): initialize
`_examples` to the empty list and register the hidden `-h, --help` option. -/
def newCommandHook (cmd : CommandNode) : CommandNode :=
  Command.optionReg { cmd with _examples := [] } "-h, --help" "显示此信息" true

/- ============================================================ -/
/- Theorems for claims C6 and C7 -/
/- ============================================================ -/

/-- Claim C6 (as stated) is refuted: with nicknames `["bot"]` and prefixes `["."]`,
the trimmed message `"@bot, hi"` begins with none of the configured items, yet the
matcher consumes `"@bot, "` (the nickname pattern admits a leading `@`) and the
message text changes to `"hi"`. -/
theorem C6_counterexample :
    strLeads "bot" "@bot, hi" = false ∧
    strLeads "." "@bot, hi" = false ∧
    stripAddress ⟨[], ["bot"], ["."]⟩ MessageType.privateMsg "@bot, hi" =
      ⟨false, "@bot, ", none, "hi"⟩ := by
  decide

/-- Claim C6 (amended): for every configured prefix and nickname list, applying the
addressing matcher to a trimmed message on which none of the three built patterns
fires — the at-mention pattern fails or the message is private, the nickname
pattern (optional `@`, required separator) yields no nonempty match, and the
prefix pattern yields no match — leaves the message text unchanged and yields
`atMe = false`, an empty nickname, and a null prefix. -/
theorem strip_no_match_leaves_unchanged (cfg : AddressConfig) (mt : MessageType)
    (msg : String)
    (hAt : mt = MessageType.privateMsg ∨ atMeMatch cfg.selfIds msg = none)
    (hName : nameREMatch cfg.nicknames msg = none ∨ nameREMatch cfg.nicknames msg = some "")
    (hPfx : cmdPfxMatch cfg.pfxs msg = none) :
    stripAddress cfg mt msg = ⟨false, "", none, msg⟩ := by
  unfold stripAddress
  have h1 : (if mt ≠ MessageType.privateMsg then
      match atMeMatch cfg.selfIds msg with
      | some cap => (true, cap, strDrop msg (strLen cap))
      | none => (false, "", msg)
    else ((false, "", msg) : Bool × String × String)) = (false, "", msg) := by
    rcases hAt with h | h
    · simp [h]
    · by_cases hmt : mt = MessageType.privateMsg <;> simp [hmt, h]
  rw [h1]
  rcases hName with h2 | h2 <;>
    simp [h2, hPfx, strLen]

/-- Witness for `strip_no_match_leaves_unchanged` at a concrete input. -/
theorem strip_no_match_leaves_unchanged_witness :
    stripAddress ⟨[42], ["bot"], ["."]⟩ MessageType.groupMsg "hello" =
      ⟨false, "", none, "hello"⟩ :=
  strip_no_match_leaves_unchanged ⟨[42], ["bot"], ["."]⟩ MessageType.groupMsg "hello"
    (Or.inr (by decide)) (Or.inl (by decide)) (by decide)

/-- Claim C7 (as stated) is refuted: the pattern `^$` produced by `createLeadingRE`
for an empty input list matches the empty message (with an empty overall match),
for each of the three matchers — it is not a pattern that matches no message. -/
theorem C7_counterexample :
    atMeMatch [] "" = some "" ∧
    nameREMatch [] "" = some "" ∧
    cmdPfxMatch [] "" = some "" := by
  decide

/-- Claim C7 (amended): each of the three addressing matchers is built either from
its non-empty configured input list, or, when that input list is empty, as the
pattern `^$`, which matches only the empty message — hence no non-empty message. -/
theorem empty_list_matches_only_empty (s : String) (h : s ≠ "") :
    atMeMatch [] s = none ∧ nameREMatch [] s = none ∧ cmdPfxMatch [] s = none := by
  refine ⟨?_, ?_, ?_⟩ <;> simp [atMeMatch, nameREMatch, cmdPfxMatch, emptyREMatch, h]

/-- Witness for `empty_list_matches_only_empty` at a concrete input. -/
theorem empty_list_matches_only_empty_witness :
    atMeMatch [] "x" = none ∧ nameREMatch [] "x" = none ∧ cmdPfxMatch [] "x" = none :=
  empty_list_matches_only_empty "x" (by decide)

/- ============================================================ -/
/- Shared helper lemmas -/
/- ============================================================ -/

@[simp] theorem pushTrail_live (st : ChainState) : (pushTrail st).live = st.live := by
  unfold pushTrail; split <;> rfl

@[simp] theorem pushTrail_mws (st : ChainState) : (pushTrail st).mws = st.mws := by
  unfold pushTrail; split <;> rfl

@[simp] theorem pushTrail_index (st : ChainState) : (pushTrail st).index = st.index := by
  unfold pushTrail; split <;> rfl

@[simp] theorem pushTrail_events (st : ChainState) : (pushTrail st).events = st.events := by
  unfold pushTrail; split <;> rfl


@[simp] theorem fbPush_live (fb : Option MW) (st : ChainState) :
    (fbPush fb st).live = st.live := by
  cases fb <;> rfl

@[simp] theorem fbPush_index (fb : Option MW) (st : ChainState) :
    (fbPush fb st).index = st.index := by
  cases fb <;> rfl

@[simp] theorem fbPush_trail (fb : Option MW) (st : ChainState) :
    (fbPush fb st).trail = st.trail := by
  cases fb <;> rfl

@[simp] theorem fbPush_events (fb : Option MW) (st : ChainState) :
    (fbPush fb st).events = st.events := by
  cases fb <;> rfl

/-- One `runStep` only appends middleware-invocation and log events, assuming the
continuation it delegates to does the same. -/
theorem runStep_events_append
    (next : Option MW → ChainState → ChainState × Outcome)
    (hnext : ∀ (fb : Option MW) (st : ChainState),
      ∃ d, ((next fb st).1).events = st.events ++ d ∧ ∀ e ∈ d, isChainEvent e = true)
    (st : ChainState) :
    ∃ d, ((runStep next st).1).events = st.events ++ d ∧
      ∀ e ∈ d, isChainEvent e = true := by
  unfold runStep
  cases hget : st.mws.get? st.index with
  | none => exact ⟨[], by simp, by intro e he; cases he⟩
  | some mw =>
    cases mw with
    | done =>
      exact ⟨[DispatchEvent.execMW st.index], by simp,
        by intro e he; simp at he; simp [he, isChainEvent]⟩
    | throwSync e =>
      refine ⟨[DispatchEvent.execMW st.index,
        DispatchEvent.logged st.trail (toNativeError e)], by simp, ?_⟩
      intro x hx
      simp at hx
      rcases hx with h | h <;> simp [h, isChainEvent]
    | rejectAsync e =>
      exact ⟨[DispatchEvent.execMW st.index], by simp,
        by intro x hx; simp at hx; simp [hx, isChainEvent]⟩
    | callNext =>
      obtain ⟨d, hd, hall⟩ := hnext none
        { st with
          index := st.index + 1
          events := st.events ++ [DispatchEvent.execMW st.index] }
      refine ⟨DispatchEvent.execMW st.index :: d, ?_, ?_⟩
      · simpa using hd
      · intro x hx
        simp at hx
        rcases hx with h | h
        · simp [h, isChainEvent]
        · exact hall x h
    | callNextFB fb₂ =>
      obtain ⟨d, hd, hall⟩ := hnext (some fb₂)
        { st with
          index := st.index + 1
          events := st.events ++ [DispatchEvent.execMW st.index] }
      refine ⟨DispatchEvent.execMW st.index :: d, ?_, ?_⟩
      · simpa using hd
      · intro x hx
        simp at hx
        rcases hx with h | h
        · simp [h, isChainEvent]
        · exact hall x h

/-- The chain phase only appends middleware-invocation and log events; it never
emits a cleanup event. -/
theorem runNext_events_append (counter : Nat) :
    ∀ (fuel : Nat) (fb : Option MW) (st : ChainState),
      ∃ d, ((runNext counter fuel fb st).1).events = st.events ++ d ∧
        ∀ e ∈ d, isChainEvent e = true := by
  intro fuel
  induction fuel with
  | zero =>
    intro fb st
    exact ⟨[], by simp [runNext], by intro e he; cases he⟩
  | succ f ih =>
    intro fb st
    simp only [runNext]
    by_cases hlive : counter ∈ (pushTrail st).live
    · rw [if_pos hlive]
      obtain ⟨d, hd, hall⟩ :=
        runStep_events_append (runNext counter f) ih (fbPush fb (pushTrail st))
      refine ⟨d, ?_, hall⟩
      rw [hd]
      simp
    · rw [if_neg hlive]
      refine ⟨[DispatchEvent.logged (pushTrail st).trail staleError], by simp, ?_⟩
      intro x hx
      simp at hx
      simp [hx, isChainEvent]

/-- Counting a non-chain event through the chain phase is invariant. -/
theorem runNext_count_nonchain (counter fuel : Nat) (fb : Option MW) (st : ChainState)
    (ev : DispatchEvent) (hev : isChainEvent ev = false) :
    ((runNext counter fuel fb st).1).events.count ev = st.events.count ev := by
  obtain ⟨d, hd, hall⟩ := runNext_events_append counter fuel fb st
  have hnm : ev ∉ d := by
    intro hmem
    rw [hall ev hmem] at hev
    cases hev
  rw [hd, List.count_append, List.count_eq_zero.mpr hnm]
  simp

/- ============================================================ -/
/- Theorems for claims C1, C2, C3 -/
/- ============================================================ -/

/-- Claim C1: once a dispatch's isolation token is no longer in the live token
set `_middlewareSet`, any invocation of that dispatch's continuation hits the
check on app.ts line 241: the stale-continuation error is raised and immediately
logged by the catch clause with the call trail (so it is never silently
ignored), no middleware executes (no invocation event is added, the cursor does
not move), and the fallback is not appended to the snapshot. -/
theorem C1_stale_continuation (counter fuel : Nat) (fb : Option MW) (st : ChainState)
    (hfuel : fuel ≠ 0) (hstale : counter ∉ st.live) :
    (runNext counter fuel fb st).2 = Outcome.resolved ∧
    (runNext counter fuel fb st).1.mws = st.mws ∧
    (runNext counter fuel fb st).1.index = st.index ∧
    (runNext counter fuel fb st).1.events =
      st.events ++ [DispatchEvent.logged (pushTrail st).trail staleError] := by
  cases fuel with
  | zero => exact absurd rfl hfuel
  | succ f =>
    have hlive : counter ∉ (pushTrail st).live := by simpa using hstale
    simp only [runNext]
    rw [if_neg hlive]
    exact ⟨rfl, by simp, by simp, by simp⟩

/-- Witness for `C1_stale_continuation` at a concrete input: token 0 already
removed from the live set, one middleware in the snapshot, a fallback passed. -/
theorem C1_stale_continuation_witness :
    (runNext 0 1 (some MW.done) ⟨[], [MW.done], 0, [], []⟩).2 = Outcome.resolved ∧
    (runNext 0 1 (some MW.done) ⟨[], [MW.done], 0, [], []⟩).1.mws = [MW.done] ∧
    (runNext 0 1 (some MW.done) ⟨[], [MW.done], 0, [], []⟩).1.index = 0 ∧
    (runNext 0 1 (some MW.done) ⟨[], [MW.done], 0, [], []⟩).1.events =
      [] ++ [DispatchEvent.logged (pushTrail ⟨[], [MW.done], 0, [], []⟩).trail staleError] :=
  C1_stale_continuation 0 1 (some MW.done) ⟨[], [MW.done], 0, [], []⟩
    (by decide) (by decide)

/-- Through a run of continuation-invoking middlewares ending at a synchronous
throw, `next` invokes exactly the middlewares up to and including the throwing
one, logs the converted error once with the accumulated trail, and resolves. -/
theorem runNext_chain_throw (counter : Nat) :
    ∀ (n fuel : Nat) (st : ChainState) (e : MWErr),
      counter ∈ st.live →
      (∀ j, j < n → st.mws.get? (st.index + j) = some MW.callNext) →
      st.mws.get? (st.index + n) = some (MW.throwSync e) →
      n + 1 ≤ fuel →
      ∃ tr, (runNext counter fuel none st).2 = Outcome.resolved ∧
        (runNext counter fuel none st).1.events =
          st.events ++ (List.range' st.index (n + 1)).map DispatchEvent.execMW
            ++ [DispatchEvent.logged tr (toNativeError e)] := by
  intro n
  induction n with
  | zero =>
    intro fuel st e hlive hpre hthrow hfuel
    cases fuel with
    | zero => omega
    | succ f =>
      simp only [runNext]
      rw [if_pos (by simpa using hlive)]
      refine ⟨(pushTrail st).trail, ?_⟩
      unfold runStep
      have hd : (fbPush none (pushTrail st)).mws.get? (fbPush none (pushTrail st)).index =
          some (MW.throwSync e) := by
        simpa [fbPush] using hthrow
      rw [hd]
      simp [List.range'_one]
  | succ n ih =>
    intro fuel st e hlive hpre hthrow hfuel
    cases fuel with
    | zero => omega
    | succ f =>
      simp only [runNext]
      rw [if_pos (by simpa using hlive)]
      unfold runStep
      have hd : (fbPush none (pushTrail st)).mws.get? (fbPush none (pushTrail st)).index =
          some MW.callNext := by
        simpa [fbPush] using hpre 0 (Nat.succ_pos n)
      rw [hd]
      simp only [fbPush, pushTrail_live, pushTrail_mws, pushTrail_index, pushTrail_events]
      obtain ⟨tr, hout, hev⟩ := ih f
        ⟨st.live, st.mws, st.index + 1, (pushTrail st).trail,
          st.events ++ [DispatchEvent.execMW st.index]⟩ e
        (by simpa using hlive)
        (by
          intro j hj
          have := hpre (j + 1) (by omega)
          simpa [Nat.add_assoc, Nat.add_comm 1 j] using this)
        (by
          have := hthrow
          simpa [Nat.add_assoc, Nat.add_comm 1 n] using this)
        (by omega)
      refine ⟨tr, ?_, ?_⟩
      · exact hout
      · rw [hev]
        simp [List.range'_succ, Nat.add_assoc]

/-- A middleware-invocation event never occurs in the cleanup block. -/
theorem execMW_not_mem_cleanup (j c : Nat) (u g : Bool) :
    DispatchEvent.execMW j ∉ cleanupEvents c u g := by
  unfold cleanupEvents
  cases u <;> cases g <;> simp

/-- The cleanup block removes the dispatch's token exactly once. -/
theorem cleanup_count_token (c : Nat) (u g : Bool) :
    (cleanupEvents c u g).count (DispatchEvent.tokenRemoved c) = 1 := by
  unfold cleanupEvents
  cases u <;> cases g <;> simp [List.count_cons, List.count_append]

/-- Claim C2 (as stated) is refuted: a middleware whose asynchronous result
rejects is not caught at the continuation boundary — on app.ts line 245 the
middleware's promise is returned without `await` inside the try block, so the
rejection bypasses the catch clause.  Concretely: with the snapshot consisting
of one async middleware rejecting with a non-Error value, the dispatch's awaited
chain rejects (the failure propagates out of `_applyMiddlewares`), nothing is
logged, and no cleanup runs — the event trace is just the single middleware
invocation. -/
theorem C2_counterexample :
    (applyMiddlewares 3 0 []
      ⟨[MW.rejectAsync (MWErr.nonNative "boom")], false, false⟩).outcome =
        Outcome.rejected (MWErr.nonNative "boom") ∧
    (applyMiddlewares 3 0 []
      ⟨[MW.rejectAsync (MWErr.nonNative "boom")], false, false⟩).events =
        [DispatchEvent.execMW 0] := by
  decide

/-- Claim C2 (amended): when a middleware fails by throwing synchronously, the
failure is caught at the continuation boundary, converted to a native `Error`,
logged together with the reconstructed call trail, and the chain halts: no
middleware after the throwing one executes, the failure does not propagate (the
awaited chain resolves), and cleanup — including the single token removal —
still runs.  (A failure delivered as an asynchronous rejection escapes instead,
see the counterexample.) -/
theorem C2_sync_throw_caught (fuel counter n : Nat) (liveOthers : List Nat)
    (a : DispatchArgs) (e : MWErr)
    (hpre : ∀ j, j < n → a.mws.get? j = some MW.callNext)
    (hthrow : a.mws.get? n = some (MW.throwSync e))
    (hfuel : n + 1 ≤ fuel) :
    (applyMiddlewares fuel counter liveOthers a).outcome = Outcome.resolved ∧
    (∃ tr, DispatchEvent.logged tr (toNativeError e) ∈
      (applyMiddlewares fuel counter liveOthers a).events) ∧
    (∀ j, DispatchEvent.execMW j ∈ (applyMiddlewares fuel counter liveOthers a).events →
      j ≤ n) ∧
    (applyMiddlewares fuel counter liveOthers a).events.count
      (DispatchEvent.tokenRemoved counter) = 1 := by
  obtain ⟨tr, hout, hev⟩ := runNext_chain_throw counter n fuel
    ⟨counter :: liveOthers, a.mws, 0, [], []⟩ e
    (List.mem_cons_self counter liveOthers) (by simpa using hpre) (by simpa using hthrow)
    hfuel
  have happ : applyMiddlewares fuel counter liveOthers a =
      ⟨(runNext counter fuel none ⟨counter :: liveOthers, a.mws, 0, [], []⟩).1,
        Outcome.resolved,
        (runNext counter fuel none ⟨counter :: liveOthers, a.mws, 0, [], []⟩).1.events ++
          cleanupEvents counter a.hasUser a.hasGroup⟩ := by
    unfold applyMiddlewares dispatchChain
    rcases hrun : runNext counter fuel none ⟨counter :: liveOthers, a.mws, 0, [], []⟩
      with ⟨st, out⟩
    have : out = Outcome.resolved := by
      have := hout
      rw [hrun] at this
      exact this
    subst this
    rfl
  rw [happ]
  dsimp only
  dsimp only at hev
  rw [List.nil_append] at hev
  refine ⟨rfl, ⟨tr, ?_⟩, ?_, ?_⟩
  · rw [hev]
    simp
  · intro j hj
    rw [hev] at hj
    rcases List.mem_append.mp hj with hj | hj
    · rcases List.mem_append.mp hj with hj | hj
      · obtain ⟨m, hm, hmeq⟩ := List.mem_map.mp hj
        obtain ⟨h1, h2⟩ := List.mem_range'_1.mp hm
        cases hmeq
        omega
      · simp at hj
    · exact absurd hj (execMW_not_mem_cleanup j counter a.hasUser a.hasGroup)
  · have hz : (List.map DispatchEvent.execMW (List.range' 0 (n + 1)) ++
        [DispatchEvent.logged tr (toNativeError e)]).count
          (DispatchEvent.tokenRemoved counter) = 0 := by
      rw [List.count_eq_zero]
      intro hmem
      rcases List.mem_append.mp hmem with h | h
      · obtain ⟨m, _, hmeq⟩ := List.mem_map.mp h
        cases hmeq
      · simp at h
    rw [hev, List.count_append, hz, cleanup_count_token]

/-- Witness for `C2_sync_throw_caught`: a two-middleware snapshot whose second
middleware throws a non-Error value synchronously. -/
theorem C2_sync_throw_caught_witness :
    (applyMiddlewares 3 0 []
      ⟨[MW.callNext, MW.throwSync (MWErr.nonNative "boom")], true, false⟩).outcome =
        Outcome.resolved ∧
    DispatchEvent.execMW 2 ∉
      (applyMiddlewares 3 0 []
        ⟨[MW.callNext, MW.throwSync (MWErr.nonNative "boom")], true, false⟩).events ∧
    (applyMiddlewares 3 0 []
      ⟨[MW.callNext, MW.throwSync (MWErr.nonNative "boom")], true, false⟩).events.count
        (DispatchEvent.tokenRemoved 0) = 1 :=
  ⟨(C2_sync_throw_caught 3 0 1 []
      ⟨[MW.callNext, MW.throwSync (MWErr.nonNative "boom")], true, false⟩
      (MWErr.nonNative "boom") (by decide) (by decide) (by decide)).1,
    fun hmem =>
      absurd ((C2_sync_throw_caught 3 0 1 []
        ⟨[MW.callNext, MW.throwSync (MWErr.nonNative "boom")], true, false⟩
        (MWErr.nonNative "boom") (by decide) (by decide) (by decide)).2.2.1 2 hmem)
        (by decide),
    (C2_sync_throw_caught 3 0 1 []
      ⟨[MW.callNext, MW.throwSync (MWErr.nonNative "boom")], true, false⟩
      (MWErr.nonNative "boom") (by decide) (by decide) (by decide)).2.2.2⟩

/-- Claim C3: whenever the chain promise awaited on app.ts line 254 resolves —
which happens exactly when the chain completed normally (ran off the snapshot),
was short-circuited by a middleware that did not invoke its continuation, or
halted on an error caught at the continuation boundary — the cleanup of lines
256-262 runs exactly once: one removal of the isolation token, one
`after-middleware` emission, and one flush of the attached user row and of the
attached group row (none when the row is not attached). -/
theorem C3_cleanup_exactly_once (fuel counter : Nat) (liveOthers : List Nat)
    (a : DispatchArgs)
    (h : (applyMiddlewares fuel counter liveOthers a).outcome = Outcome.resolved) :
    ((applyMiddlewares fuel counter liveOthers a).events.count
        (DispatchEvent.tokenRemoved counter) = 1) ∧
    ((applyMiddlewares fuel counter liveOthers a).events.count
        DispatchEvent.afterMiddleware = 1) ∧
    ((applyMiddlewares fuel counter liveOthers a).events.count
        DispatchEvent.flushUser = (if a.hasUser then 1 else 0)) ∧
    ((applyMiddlewares fuel counter liveOthers a).events.count
        DispatchEvent.flushGroup = (if a.hasGroup then 1 else 0)) := by
  have hchain : ∀ ev : DispatchEvent, isChainEvent ev = false →
      ((dispatchChain fuel counter liveOthers a.mws).1).events.count ev = 0 := by
    intro ev hev
    unfold dispatchChain
    rw [runNext_count_nonchain counter fuel none _ ev hev]
    simp
  unfold applyMiddlewares at h ⊢
  rcases hrun : dispatchChain fuel counter liveOthers a.mws with ⟨st, out⟩
  rw [hrun] at h
  have hst : ∀ ev : DispatchEvent, isChainEvent ev = false → st.events.count ev = 0 := by
    intro ev hev
    have := hchain ev hev
    rw [hrun] at this
    exact this
  cases out with
  | resolved =>
    dsimp only
    refine ⟨?_, ?_, ?_, ?_⟩
    · rw [List.count_append, hst (DispatchEvent.tokenRemoved counter) rfl,
        cleanup_count_token]
    · rw [List.count_append, hst DispatchEvent.afterMiddleware rfl]
      unfold cleanupEvents
      cases a.hasUser <;> cases a.hasGroup <;>
        simp [List.count_cons, List.count_append]
    · rw [List.count_append, hst DispatchEvent.flushUser rfl]
      unfold cleanupEvents
      cases a.hasUser <;> cases a.hasGroup <;>
        simp [List.count_cons, List.count_append]
    · rw [List.count_append, hst DispatchEvent.flushGroup rfl]
      unfold cleanupEvents
      cases a.hasUser <;> cases a.hasGroup <;>
        simp [List.count_cons, List.count_append]
  | rejected e => cases h
  | fuelOut => cases h

/-- Witness for `C3_cleanup_exactly_once`: a chain short-circuited by its second
middleware, with a user row attached and no group row. -/
theorem C3_cleanup_exactly_once_witness :
    ((applyMiddlewares 3 0 [] ⟨[MW.callNext, MW.done], true, false⟩).events.count
        (DispatchEvent.tokenRemoved 0) = 1) ∧
    ((applyMiddlewares 3 0 [] ⟨[MW.callNext, MW.done], true, false⟩).events.count
        DispatchEvent.afterMiddleware = 1) ∧
    ((applyMiddlewares 3 0 [] ⟨[MW.callNext, MW.done], true, false⟩).events.count
        DispatchEvent.flushUser = 1) ∧
    ((applyMiddlewares 3 0 [] ⟨[MW.callNext, MW.done], true, false⟩).events.count
        DispatchEvent.flushGroup = 0) :=
  C3_cleanup_exactly_once 3 0 [] ⟨[MW.callNext, MW.done], true, false⟩ (by decide)

/- ============================================================ -/
/- Theorems for claims C4 and C5 -/
/- ============================================================ -/

/-- Claim C4: for every session that reaches the command dispatch trigger — the
tail of the first middleware `_preprocess`, reached exactly when the `attach`
notification fires (app.ts line 216) — a command invocation resolved during
parsing is executed directly with no continuation call (so no later middleware
runs), and when no command was resolved the continuation is invoked
(app.ts lines 219-220). -/
theorem C4_command_trigger (i : PreprocessInput)
    (hreach : PreEvent.attachNotify ∈ preprocess i) :
    (i.argvResolved = true →
      PreEvent.execCommand ∈ preprocess i ∧ PreEvent.callNext ∉ preprocess i) ∧
    (i.argvResolved = false →
      PreEvent.callNext ∈ preprocess i ∧ PreEvent.execCommand ∉ preprocess i) := by
  unfold preprocess preprocessUser preprocessTail at hreach ⊢
  split_ifs at hreach ⊢ <;> simp_all

/-- Witness for `C4_command_trigger`: no database configured, command resolved. -/
theorem C4_command_trigger_witness :
    PreEvent.attachNotify ∈
      preprocess ⟨false, MessageType.privateMsg, 1, false, ⟨0, 0⟩, ⟨0⟩, false, false, true⟩ ∧
    PreEvent.execCommand ∈
      preprocess ⟨false, MessageType.privateMsg, 1, false, ⟨0, 0⟩, ⟨0⟩, false, false, true⟩ ∧
    PreEvent.callNext ∉
      preprocess ⟨false, MessageType.privateMsg, 1, false, ⟨0, 0⟩, ⟨0⟩, false, false, true⟩ :=
  ⟨by decide,
    ((C4_command_trigger
      ⟨false, MessageType.privateMsg, 1, false, ⟨0, 0⟩, ⟨0⟩, false, false, true⟩
      (by decide)).1 rfl).1,
    ((C4_command_trigger
      ⟨false, MessageType.privateMsg, 1, false, ⟨0, 0⟩, ⟨0⟩, false, false, true⟩
      (by decide)).1 rfl).2⟩

/-- Claim C5: with storage configured, a group message whose attached group row
has the ignore bit set, or whose assignee is another bot while the message was
not an at-mention of the receiving bot, makes `_preprocess` return right after
loading the group row (app.ts lines 200-201): the dispatch aborts quietly — no
continuation call, no command execution — and the user row is never loaded, so
the cleanup flush of `session.$user` has nothing to flush. -/
theorem C5_group_gate_abort (i : PreprocessInput)
    (hdb : i.dbConfigured = true) (hmt : i.mt = MessageType.groupMsg)
    (habort : i.groupRow.flag &&& Group.ignoreFlag ≠ 0 ∨
      (i.groupRow.assignee ≠ i.selfId ∧ i.atMe = false)) :
    preprocess i = [PreEvent.loadGroup] ∧
    PreEvent.loadUser ∉ preprocess i ∧
    PreEvent.callNext ∉ preprocess i ∧
    PreEvent.execCommand ∉ preprocess i := by
  have h : preprocess i = [PreEvent.loadGroup] := by
    unfold preprocess
    rw [if_pos hdb, if_pos hmt]
    by_cases hv : i.vetoGroup = true
    · simp [hv]
    · rcases habort with h2 | h2
      · simp [hv, h2]
      · by_cases h3 : i.groupRow.flag &&& Group.ignoreFlag ≠ 0
        · simp [hv, h3]
        · simp [hv, h3, h2]
  refine ⟨h, ?_, ?_, ?_⟩ <;> rw [h] <;> simp

/-- Witness for `C5_group_gate_abort`: group row with the ignore bit set. -/
theorem C5_group_gate_abort_witness :
    preprocess ⟨true, MessageType.groupMsg, 7, false, ⟨1, 7⟩, ⟨0⟩, false, false, true⟩ =
      [PreEvent.loadGroup] ∧
    PreEvent.loadUser ∉
      preprocess ⟨true, MessageType.groupMsg, 7, false, ⟨1, 7⟩, ⟨0⟩, false, false, true⟩ ∧
    PreEvent.callNext ∉
      preprocess ⟨true, MessageType.groupMsg, 7, false, ⟨1, 7⟩, ⟨0⟩, false, false, true⟩ ∧
    PreEvent.execCommand ∉
      preprocess ⟨true, MessageType.groupMsg, 7, false, ⟨1, 7⟩, ⟨0⟩, false, false, true⟩ :=
  C5_group_gate_abort ⟨true, MessageType.groupMsg, 7, false, ⟨1, 7⟩, ⟨0⟩, false, false, true⟩
    (by decide) (by decide) (Or.inl (by decide))

/- ============================================================ -/
/- Theorems for claims C8, C9, C10 -/
/- ============================================================ -/

/-- Claim C8: the check-and-install of `this._getSelfIdsPromise` is synchronous
(app.ts lines 124-131), so of two `getSelfIds` calls the first installs the
shared promise and issues exactly one `getLoginInfo` call per unresolved bot
with a transport handle, and the second — issued before (or after) the first
resolution completes — installs nothing, issues no network call, and awaits the
same in-flight resolution. -/
theorem C8_selfIds_resolved_once (bots : List BotEntry)
    (hnd : (bots.map BotEntry.botId).Nodup) :
    (getSelfIdsSync bots ⟨false, []⟩).2 = true ∧
    (getSelfIdsSync bots (getSelfIdsSync bots ⟨false, []⟩).1).2 = false ∧
    (getSelfIdsSync bots (getSelfIdsSync bots ⟨false, []⟩).1).1 =
      (getSelfIdsSync bots ⟨false, []⟩).1 ∧
    (∀ b ∈ bots, b.hasGet = true → b.selfId = none →
      ((getSelfIdsSync bots (getSelfIdsSync bots ⟨false, []⟩).1).1).loginCalls.count
        b.botId = 1) := by
  have h1 : getSelfIdsSync bots ⟨false, []⟩ =
      (⟨true, (bots.filter (fun b => b.hasGet && b.selfId.isNone)).map BotEntry.botId⟩,
        true) := by
    simp [getSelfIdsSync]
  have h2 : getSelfIdsSync bots (getSelfIdsSync bots ⟨false, []⟩).1 =
      ((getSelfIdsSync bots ⟨false, []⟩).1, false) := by
    rw [h1]
    simp [getSelfIdsSync]
  refine ⟨by rw [h1], by rw [h2], by rw [h2], ?_⟩
  intro b hb hget hsid
  rw [h2, h1]
  have hmem : b ∈ bots.filter (fun b => b.hasGet && b.selfId.isNone) :=
    List.mem_filter.mpr ⟨hb, by simp [hget, hsid]⟩
  have hnd' : ((bots.filter (fun b => b.hasGet && b.selfId.isNone)).map
      BotEntry.botId).Nodup :=
    List.Nodup.sublist (List.Sublist.map BotEntry.botId (List.filter_sublist bots)) hnd
  exact List.count_eq_one_of_mem hnd' (List.mem_map_of_mem BotEntry.botId hmem)

/-- Witness for `C8_selfIds_resolved_once`: two bots, one unresolved. -/
theorem C8_selfIds_resolved_once_witness :
    (getSelfIdsSync [⟨1, true, none⟩, ⟨2, true, some 5⟩] ⟨false, []⟩).2 = true ∧
    (getSelfIdsSync [⟨1, true, none⟩, ⟨2, true, some 5⟩]
      (getSelfIdsSync [⟨1, true, none⟩, ⟨2, true, some 5⟩] ⟨false, []⟩).1).2 = false ∧
    (getSelfIdsSync [⟨1, true, none⟩, ⟨2, true, some 5⟩]
      (getSelfIdsSync [⟨1, true, none⟩, ⟨2, true, some 5⟩] ⟨false, []⟩).1).1 =
      (getSelfIdsSync [⟨1, true, none⟩, ⟨2, true, some 5⟩] ⟨false, []⟩).1 ∧
    ((getSelfIdsSync [⟨1, true, none⟩, ⟨2, true, some 5⟩]
      (getSelfIdsSync [⟨1, true, none⟩, ⟨2, true, some 5⟩] ⟨false, []⟩).1).1).loginCalls.count
        1 = 1 :=
  ⟨(C8_selfIds_resolved_once [⟨1, true, none⟩, ⟨2, true, some 5⟩] (by decide)).1,
    (C8_selfIds_resolved_once [⟨1, true, none⟩, ⟨2, true, some 5⟩] (by decide)).2.1,
    (C8_selfIds_resolved_once [⟨1, true, none⟩, ⟨2, true, some 5⟩] (by decide)).2.2.1,
    (C8_selfIds_resolved_once [⟨1, true, none⟩, ⟨2, true, some 5⟩] (by decide)).2.2.2
      ⟨1, true, none⟩ (by decide) rfl rfl⟩

/-- Claim C9: the help plugin's before-command interception (help.ts lines
57-65) — when the resolved command has no action callback or the help option is
set, it executes the `help` command with the command's name as its argument and
returns `true`, short-circuiting the original execution; otherwise it returns
without effect. -/
theorem C9_help_redirect (a : BeforeCommandArgv) :
    ((a.hasAction = false ∨ a.helpOption = true) →
      helpBeforeCommand a = ([("help", [a.cmdName])], some true)) ∧
    ((a.hasAction = true ∧ a.helpOption = false) →
      helpBeforeCommand a = ([], none)) := by
  constructor
  · intro h
    unfold helpBeforeCommand
    rcases h with h | h <;> simp [h]
  · intro ⟨h1, h2⟩
    unfold helpBeforeCommand
    simp [h1, h2]

/-- Witness for `C9_help_redirect`: a command with no action callback. -/
theorem C9_help_redirect_witness :
    helpBeforeCommand ⟨false, false, "ping"⟩ = ([("help", ["ping"])], some true) :=
  (C9_help_redirect ⟨false, false, "ping"⟩).1 (Or.inl rfl)

/-- Claim C10: the help plugin's new-command handler (help.ts lines 51-54)
initializes every newly created command node with an empty examples list and
registers a hidden `-h, --help` option on it. -/
theorem C10_new_command_defaults (cmd : CommandNode) :
    (newCommandHook cmd)._examples = [] ∧
    ∃ o ∈ (newCommandHook cmd)._options,
      o.rawName = "-h, --help" ∧ o.hidden = true := by
  refine ⟨rfl, ⟨⟨"-h, --help", "显示此信息", true⟩, ?_, rfl, rfl⟩⟩
  unfold newCommandHook Command.optionReg
  simp
